import Mathlib

/-!
Verification development for the ActivityPubWebViewer fetch-resolve-normalize
pipeline (PHP `Client`, `Note`, `Validator`, `SecurityHandler`/`api.php`).

The PHP sources are shallowly embedded: decoded JSON documents become the
`Json` inductive; the network is an oracle `Env.fetch : String → Except ErrCode
Json` (modelling `Client::httpGet`, which returns decoded JSON or throws a
typed exception); the current clock is an explicit `Env.now`.  PHP builtins
used by the code (`strip_tags`, `htmlspecialchars`, `filter_var` with
`FILTER_VALIDATE_URL`, `parse_url`, `mb_strlen`/`mb_substr`, `strtolower`,
`str_starts_with`, `DateTimeImmutable`) are modelled by executable Lean
functions, each documented at its definition.
-/

/-- Decoded JSON value, the result of PHP `json_decode($s, true)`.  JSON
numbers are modelled as integers (the code never inspects fractional
values). -/
inductive Json where
  | null : Json
  | bool : Bool → Json
  | num : Int → Json
  | str : String → Json
  | arr : List Json → Json
  | obj : List (String × Json) → Json

/-- Association-list lookup for an object field (raw, no null collapsing). -/
def lookupField : List (String × Json) → String → Option Json
  | [], _ => none
  | (k, v) :: rest, key => if k = key then some v else lookupField rest key

/-- Raw field access: `some v` when the key is present on an object (even with
a JSON `null` value), `none` otherwise. -/
def rawGet : Json → String → Option Json
  | Json.obj fields, key => lookupField fields key
  | _, _ => none

/-- Field access with PHP `isset` / `?? null` semantics: a JSON `null` value
behaves exactly like an absent key for both `isset($a[k])` and `$a[k] ?? d`,
so it is collapsed to `none`.  Indexing a non-array (e.g. a string item with a
string key, as in `isset($item['type'])` when `$item` is a string) yields
`none`, as in PHP. -/
def jGet (j : Json) (key : String) : Option Json :=
  match rawGet j key with
  | some Json.null => none
  | some v => some v
  | none => none

/-- PHP `$j[key] ?? d`. -/
def jGetD (j : Json) (key : String) (d : Json) : Json := (jGet j key).getD d

/-- PHP `isset($j[key])`. -/
def issetF (j : Json) (key : String) : Bool := (jGet j key).isSome

/-- PHP `empty($v)` on a decoded JSON value: `null`, `false`, `0`, `""`,
`"0"` and the empty array are empty. -/
def phpEmpty : Json → Bool
  | Json.null => true
  | Json.bool b => !b
  | Json.num n => n = 0
  | Json.str s => s = "" || s = "0"
  | Json.arr l => l.isEmpty
  | Json.obj l => l.isEmpty

/-- Truthiness of a PHP string: `""` and `"0"` are falsy. -/
def phpFalsyStr (s : String) : Bool := s = "" || s = "0"

/-- PHP `$j["type"] === t` (strict comparison: only a string field matches). -/
def typeIs (j : Json) (t : String) : Bool :=
  match jGet j "type" with
  | some (Json.str s) => s = t
  | _ => false

/-- PHP `is_array` view of a decoded JSON value: both JSON arrays and JSON
objects decode (with `assoc: true`) to PHP arrays; `foreach` iterates the
values of either. -/
def jArrVals : Json → Option (List Json)
  | Json.arr l => some l
  | Json.obj l => some (l.map Prod.snd)
  | _ => none

/-- PHP `isset($j[k]) && is_array($j[k])`, returning the values iterated by
`foreach`. -/
def arrField (j : Json) (k : String) : Option (List Json) :=
  match jGet j k with
  | some v => jArrVals v
  | none => none

/-- PHP string coercion of a scalar JSON value, with a default for an absent
key (`(string)($j[k] ?? d)`).  Array values, on which PHP would raise a
`TypeError`, are not modelled and fall back to the default. -/
def jGetStringD (j : Json) (key : String) (d : String) : String :=
  match jGet j key with
  | some (Json.str s) => s
  | some (Json.num n) => toString n
  | some (Json.bool b) => if b then "1" else ""
  | _ => d

/-- ASCII lowercase of one character (PHP `strtolower` is byte-wise). -/
def asciiLowerChar (c : Char) : Char :=
  if 65 ≤ c.toNat ∧ c.toNat ≤ 90 then Char.ofNat (c.toNat + 32) else c

/-- PHP `strtolower`. -/
def asciiLower (s : String) : String := String.mk (s.data.map asciiLowerChar)

def isAsciiAlpha (c : Char) : Bool :=
  decide ((65 ≤ c.toNat ∧ c.toNat ≤ 90) ∨ (97 ≤ c.toNat ∧ c.toNat ≤ 122))

def isAsciiDigit (c : Char) : Bool := decide (48 ≤ c.toNat ∧ c.toNat ≤ 57)

/-- Predicate `hasStart s p` : `p` is an initial run of `s` (PHP `str_starts_with`). -/
def hasStart : List Char → List Char → Bool
  | _, [] => true
  | [], _ :: _ => false
  | c :: cs, p :: ps => c = p && hasStart cs ps

/-- Split a character list at the first occurrence of `"://"`. -/
def splitSchemeAux : List Char → Option (List Char × List Char)
  | ':' :: '/' :: '/' :: rest => some ([], rest)
  | c :: rest =>
    match splitSchemeAux rest with
    | some (sch, tail) => some (c :: sch, tail)
    | none => none
  | [] => none

def isSchemeChar (c : Char) : Bool :=
  isAsciiAlpha c || isAsciiDigit c || c = '+' || c = '-' || c = '.'

def isHostChar (c : Char) : Bool :=
  isAsciiAlpha c || isAsciiDigit c || c = '.' || c = '-' || c = '_'

/-- Models PHP `filter_var($url, FILTER_VALIDATE_URL)` for the URL shapes this
codebase handles: the URL must have the form `scheme://host...` with a
non-empty scheme starting with a letter and a non-empty host made of
letters, digits, dots, hyphens or underscores. -/
def isValidUrl (url : String) : Bool :=
  match splitSchemeAux url.data with
  | none => false
  | some (sch, rest) =>
    let host := rest.takeWhile fun c => !(c = '/' || c = ':' || c = '?' || c = '#')
    (!sch.isEmpty) && sch.all isSchemeChar &&
      (match sch with
       | c :: _ => isAsciiAlpha c
       | [] => false) &&
      (!host.isEmpty) && host.all isHostChar

/-- Models `parse_url($url, PHP_URL_HOST)` on URLs of the form
`scheme://host...`. -/
def urlHost (url : String) : Option String :=
  match splitSchemeAux url.data with
  | some (_, rest) =>
    let host := rest.takeWhile fun c => !(c = '/' || c = ':' || c = '?' || c = '#')
    if host.isEmpty then none else some (String.mk host)
  | none => none

/-- Models `parse_url($url, PHP_URL_SCHEME)` (the scheme as written, not
lowercased — the source applies `strtolower` itself). -/
def urlScheme (url : String) : Option String :=
  match splitSchemeAux url.data with
  | some (sch, _) => if sch.isEmpty then none else some (String.mk sch)
  | none => none

/-- The closed set of error codes carried by `FetchException` /
`ParseException` (src/unnamed/part_001).  `unknownError` stands for any
uncaught generic exception (normalized to `UNKNOWN_ERROR` by
`ErrorResponse::fromException`). -/
inductive ErrCode where
  | invalidUrl
  | domainNotAllowed
  | networkError
  | httpError
  | timeoutError
  | jsonError
  | invalidActor
  | noOutbox
  | invalidNote
  | unknownError
deriving DecidableEq

def dangerousSchemes : List String := ["javascript", "data", "vbscript", "file"]

/-- Final step of `Validator::validateUrl`: the dangerous-scheme denylist
check (`$scheme && in_array(strtolower($scheme), $dangerousSchemes)`). -/
def dangerousSchemeCheck (url : String) : Except ErrCode Unit :=
  match urlScheme url with
  | some sch =>
    if (!phpFalsyStr sch) && dangerousSchemes.contains (asciiLower sch) then
      .error .invalidUrl
    else .ok ()
  | none => .ok ()

/-- Embeds `Validator::validateUrl` (src/php/Validator.php lines 99-125): format
check, HTTPS check, optional domain allowlist check, dangerous-scheme
check, in that order.  Throwing is modelled by `Except.error`. -/
def Validator.validateUrl (url : String) (allowedDomains : List String) :
    Except ErrCode Unit :=
  if !isValidUrl url then .error .invalidUrl
  else if !hasStart url.data "https://".data then .error .invalidUrl
  else if (!allowedDomains.isEmpty) && !(allowedDomains.contains "*") then
    match urlHost url with
    | none => .error .domainNotAllowed
    | some host =>
      if phpFalsyStr host || !(allowedDomains.contains host) then
        .error .domainNotAllowed
      else dangerousSchemeCheck url
  else dangerousSchemeCheck url

def validActorTypes : List String :=
  ["Person", "Service", "Organization", "Application", "Group"]

/-- PHP `in_array($v, $strings)` with PHP 8 loose comparison: a string matches by
equality; `true` loosely equals every non-empty member string, so a JSON
`true` value passes; numbers and arrays match no member. -/
def looseInStrings (v : Json) (strings : List String) : Bool :=
  match v with
  | Json.str s => strings.contains s
  | Json.bool true => !strings.isEmpty
  | _ => false

/-- Embeds `Validator::validateActorObject`. -/
def validateActorObject (data : Json) : Bool :=
  issetF data "id" && issetF data "type" && issetF data "outbox" &&
    looseInStrings (jGetD data "type" Json.null) validActorTypes &&
    (match jGet data "outbox" with
     | some (Json.str s) => isValidUrl s
     | _ => false)

/-- Embeds `Validator::validateNoteObject`. -/
def validateNoteObject (data : Json) : Bool :=
  typeIs data "Note" &&
    (match jGet data "id" with
     | some v => !phpEmpty v
     | none => false) &&
    (issetF data "content" || issetF data "summary")

def validCollectionTypes : List String :=
  ["OrderedCollection", "Collection", "OrderedCollectionPage", "CollectionPage"]

/-- Embeds `Validator::validateOutboxCollection`. -/
def validateOutboxCollection (data : Json) : Bool :=
  issetF data "type" &&
    looseInStrings (jGetD data "type" Json.null) validCollectionTypes &&
    (issetF data "orderedItems" || issetF data "items" || issetF data "first")

/-- The whitelist passed to `strip_tags` in `Note::sanitizeContent`
(`'<p><br><a><strong><em><b><i><u><s><code><pre><blockquote><ul><ol><li>'`). -/
def allowedTags : List String :=
  ["p", "br", "a", "strong", "em", "b", "i", "u", "s", "code", "pre",
   "blockquote", "ul", "ol", "li"]

/-- Tag name of the text between `<` and `>`: an optional `/` followed by the
run of letters/digits, lowercased (PHP compares tag names
case-insensitively). -/
def tagNameOf (tag : List Char) : String :=
  let core := match tag with
    | '/' :: rest => rest
    | rest => rest
  String.mk ((core.takeWhile fun c => isAsciiAlpha c || isAsciiDigit c).map
    asciiLowerChar)

/-- Core loop of PHP `strip_tags($s, $allowed)`.  The second argument is
`none` outside a tag and `some acc` inside one (with `acc` the reversed tag
body so far).  A tag whose name is in `allowed` is kept verbatim, any other
tag is dropped — *the text between tags always stays*, including the body of
a removed `<script>` element.  An unterminated `<` drops the rest of the
input.  HTML comments and processing instructions do not occur in the inputs
considered here and are not modelled. -/
def stripTagsGo (allowed : List String) : List Char → Option (List Char) → List Char
  | [], _ => []
  | c :: rest, none =>
    if c = '<' then stripTagsGo allowed rest (some [])
    else c :: stripTagsGo allowed rest none
  | c :: rest, some acc =>
    if c = '>' then
      if allowed.contains (tagNameOf acc.reverse) then
        '<' :: (acc.reverse ++ '>' :: stripTagsGo allowed rest none)
      else stripTagsGo allowed rest none
    else stripTagsGo allowed rest (some (c :: acc))

/-- PHP `strip_tags($s, $allowed)`. -/
def stripTags (allowed : List String) (s : List Char) : List Char :=
  stripTagsGo allowed s none

/-- Predicate `entityRun l p` : `l` starts with a non-empty run of `p`-characters
immediately followed by `;`. -/
def entityRun (l : List Char) (p : Char → Bool) : Bool :=
  !((l.takeWhile p).isEmpty) &&
    (match l.drop (l.takeWhile p).length with
     | ';' :: _ => true
     | _ => false)

/-- Entity-start test used to model `double_encode: false`: after an `&`,
`name;`, `#digits;` or `#xhex;` is treated as an existing entity and the `&`
is left unencoded. -/
def isEntityStart (rest : List Char) : Bool :=
  match rest with
  | '#' :: 'x' :: h => entityRun h fun c => isAsciiDigit c || isAsciiAlpha c
  | '#' :: more => entityRun more isAsciiDigit
  | _ => entityRun rest fun c => isAsciiAlpha c || isAsciiDigit c

/-- PHP `htmlspecialchars($s, ENT_QUOTES | ENT_HTML5, 'UTF-8', false)`:
encodes `&` (except when it begins an existing entity — `double_encode:
false`), `<`, `>`, `"` and the apostrophe (as `&apos;` under `ENT_HTML5`).
Note that `<` and `>` are *always* encoded: `double_encode` does not exempt
tags. -/
def phpEscape : List Char → List Char
  | [] => []
  | c :: rest =>
    if c = '&' then
      if isEntityStart rest then c :: phpEscape rest
      else '&' :: 'a' :: 'm' :: 'p' :: ';' :: phpEscape rest
    else if c = '<' then '&' :: 'l' :: 't' :: ';' :: phpEscape rest
    else if c = '>' then '&' :: 'g' :: 't' :: ';' :: phpEscape rest
    else if c = Char.ofNat 34 then
      '&' :: 'q' :: 'u' :: 'o' :: 't' :: ';' :: phpEscape rest
    else if c = Char.ofNat 39 then
      '&' :: 'a' :: 'p' :: 'o' :: 's' :: ';' :: phpEscape rest
    else c :: phpEscape rest

/-- The string produced by `Note::sanitizeContent` *before* the length cap:
`htmlspecialchars(strip_tags($content, $allowedTags), ENT_QUOTES | ENT_HTML5,
'UTF-8', false)`. -/
def sanitizePre (content : String) : List Char :=
  phpEscape (stripTags allowedTags content.data)

/-- Embeds `Note::sanitizeContent` (src/unnamed/part_001 lines 487-504): strip tags
against the whitelist, escape special characters, then cap at 10000
characters (`mb_strlen`/`mb_substr`), appending `...` when truncated. -/
def sanitizeContent (content : String) : String :=
  let sanitized := sanitizePre content
  if 10000 < sanitized.length then
    String.mk (sanitized.take 10000 ++ ['.', '.', '.'])
  else
    String.mk sanitized

/-- Two-digit zero padding, as in the PHP date patterns `m`, `d`, `H`, `i`. -/
def pad2 (n : Nat) : String := if n < 10 then "0" ++ toString n else toString n

/-- Gregorian civil date from a day count relative to 1970-01-01
(standard era-based conversion, as used by every calendar library). -/
def civilFromDays (z : Int) : Int × Nat × Nat :=
  let z' := z + 719468
  let era := z'.fdiv 146097
  let doe := (z' - era * 146097).toNat
  let yoe := (doe - doe / 1460 + doe / 36524 - doe / 146096) / 365
  let doy := doe - (365 * yoe + yoe / 4 - yoe / 100)
  let mp := (5 * doy + 2) / 153
  let d := doy - (153 * mp + 2) / 5 + 1
  let m := if mp < 10 then mp + 3 else mp - 9
  ((yoe : Int) + era * 400 + (if m ≤ 2 then 1 else 0), m, d)

/-- Day count relative to 1970-01-01 of a Gregorian civil date. -/
def daysFromCivil (y : Int) (m d : Nat) : Int :=
  let y' := y - (if m ≤ 2 then 1 else 0)
  let era := y'.fdiv 400
  let yoe := (y' - era * 400).toNat
  let doy := (153 * (if 2 < m then m - 3 else m + 9) + 2) / 5 + d - 1
  let doe := yoe * 365 + yoe / 4 - yoe / 100 + doy
  era * 146097 + (doe : Int) - 719468

/-- PHP `$publishedAt->setTimezone(new DateTimeZone("Asia/Tokyo"))
->format('Y年m月d日 H:i')` applied to an epoch timestamp: Asia/Tokyo is a
fixed UTC+9 offset. -/
def tokyoFormat (ts : Int) : String :=
  let t := ts + 32400
  let days := t.fdiv 86400
  let rem := (t - days * 86400).toNat
  let c := civilFromDays days
  toString c.1 ++ "年" ++ pad2 c.2.1 ++ "月" ++ pad2 c.2.2 ++ "日 " ++
    pad2 (rem / 3600) ++ ":" ++ pad2 (rem % 3600 / 60)

/-- PHP `format(c)` of an epoch timestamp, rendered in UTC (the ISO-8601 string
used for `published_at` and `fetched_at`). -/
def isoFormat (ts : Int) : String :=
  let days := ts.fdiv 86400
  let rem := (ts - days * 86400).toNat
  let c := civilFromDays days
  toString c.1 ++ "-" ++ pad2 c.2.1 ++ "-" ++ pad2 c.2.2 ++ "T" ++
    pad2 (rem / 3600) ++ ":" ++ pad2 (rem % 3600 / 60) ++ ":" ++
    pad2 (rem % 60) ++ "+00:00"

def digitVal (c : Char) : Option Nat :=
  if isAsciiDigit c then some (c.toNat - 48) else none

def twoDigits : List Char → Option (Nat × List Char)
  | a :: b :: rest =>
    match digitVal a, digitVal b with
    | some x, some y => some (10 * x + y, rest)
    | _, _ => none
  | _ => none

/-- Timezone designator of an ISO-8601 string: `Z`, `±HH:MM`, `±HHMM`, or
absent (the server default timezone, taken to be UTC).  Returns the offset in
seconds. -/
def parseTzOffset : List Char → Option Int
  | [] => some 0
  | ['Z'] => some 0
  | '+' :: rest =>
    (match twoDigits rest with
     | some (h, ':' :: rest') =>
       (match twoDigits rest' with
        | some (mi, []) => some ((h * 3600 + mi * 60 : Nat) : Int)
        | _ => none)
     | some (h, rest') =>
       (match twoDigits rest' with
        | some (mi, []) => some ((h * 3600 + mi * 60 : Nat) : Int)
        | _ => none)
     | none => none)
  | '-' :: rest =>
    (match twoDigits rest with
     | some (h, ':' :: rest') =>
       (match twoDigits rest' with
        | some (mi, []) => some (-((h * 3600 + mi * 60 : Nat) : Int))
        | _ => none)
     | some (h, rest') =>
       (match twoDigits rest' with
        | some (mi, []) => some (-((h * 3600 + mi * 60 : Nat) : Int))
        | _ => none)
     | none => none)
  | _ => none

/-- Models `new DateTimeImmutable($s)` for the ISO-8601 datetime subset
emitted by ActivityPub servers (`YYYY-MM-DDTHH:MM:SS` with optional
timezone designator, optionally with fractional seconds, whose value PHP
keeps but which does not change the epoch-second timestamp): returns the
epoch timestamp, or `none` when the string is not in this *absolute*
subset.  Relative formats such as `now` are handled by `phpDateTime`
below. -/
def parseDateTime (s : String) : Option Int :=
  match s.data with
  | y1 :: y2 :: y3 :: y4 :: '-' :: rest =>
    (match digitVal y1, digitVal y2, digitVal y3, digitVal y4 with
     | some a, some b, some c, some d =>
       let y := 1000 * a + 100 * b + 10 * c + d
       (match twoDigits rest with
        | some (mo, '-' :: rest1) =>
          (match twoDigits rest1 with
           | some (da, 'T' :: rest2) =>
             (match twoDigits rest2 with
              | some (hh, ':' :: rest3) =>
                (match twoDigits rest3 with
                 | some (mi, ':' :: rest4) =>
                   (match twoDigits rest4 with
                    | some (ss, rest5) =>
                      let rest6 := match rest5 with
                        | '.' :: ds =>
                          if (ds.takeWhile isAsciiDigit).isEmpty then '.' :: ds
                          else ds.drop (ds.takeWhile isAsciiDigit).length
                        | other => other
                      (match parseTzOffset rest6 with
                       | some off =>
                         if 1 ≤ mo ∧ mo ≤ 12 ∧ 1 ≤ da ∧ da ≤ 31 ∧
                             hh ≤ 23 ∧ mi ≤ 59 ∧ ss ≤ 59 then
                           some (daysFromCivil (y : Int) mo da * 86400 +
                             ((hh * 3600 + mi * 60 + ss : Nat) : Int) - off)
                         else none
                       | none => none)
                    | none => none)
                 | _ => none)
              | _ => none)
           | _ => none)
        | _ => none)
     | _, _, _, _ => none)
  | _ => none

/-- Models `new DateTimeImmutable($s)` with the current clock explicit.
Absolute ISO-8601 stamps parse clock-independently via `parseDateTime`.
PHP also accepts *relative* formats, which it resolves against the current
time in the default timezone (taken to be UTC): the common ones are
modelled here — the literal `now` (the constructor default used when
`published` is absent) and the day-relative `today` / `tomorrow` /
`yesterday`, which PHP resolves to midnight of the respective day.  Further
relative formats PHP would accept, and strings PHP genuinely cannot parse
(where it throws an `Exception` no caller catches), both map to `none`;
every theorem that depends on a *successful* parse carries an explicit
`parseDateTime` hypothesis, so this conservative cut-off is never
load-bearing. -/
def phpDateTime (s : String) (now : Int) : Option Int :=
  if s = "now" then some now
  else if s = "today" then some (now.fdiv 86400 * 86400)
  else if s = "tomorrow" then some ((now.fdiv 86400 + 1) * 86400)
  else if s = "yesterday" then some ((now.fdiv 86400 - 1) * 86400)
  else parseDateTime s

/-- An attachment entry built by `Note::fromArray`: `type` lowercased,
`alt_text` defaulting to `''`, and (only when `type === 'image'`) the keys
`width`/`height` carrying `$att['width'] ?? null` / `$att['height'] ?? null`.
Raw values are kept as decoded JSON, as the PHP array does. -/
structure Attachment where
  type : String
  url : Json
  altText : Json
  width : Option Json
  height : Option Json

/-- The author record built by `Note::fromArray` (`Option` is the empty
`$author = []` default when `attributedTo` is absent or non-array,
non-string). -/
structure Author where
  id : Json
  name : Json
  avatar : Json

/-- The immutable `Note` entity (src/unnamed/part_001 lines 377-409). -/
structure Note where
  id : String
  content : String
  sanitizedContent : String
  publishedAt : Int
  formattedDate : String
  url : Option String
  attachments : List Attachment
  author : Option Author

/-- PHP `strtolower($att["type"])` on the raw JSON value (a PHP string coercion
followed by lowercasing; array values, a `TypeError` in PHP, are not
modelled). -/
def jLowerString (v : Json) : String :=
  match v with
  | Json.str s => asciiLower s
  | Json.num n => toString n
  | Json.bool b => if b then "1" else ""
  | _ => ""

/-- One entry of the `foreach ($data['attachment'] as $att)` loop of
`Note::fromArray`: kept only when both `type` and `url` are set. -/
def buildAttachment (att : Json) : Option Attachment :=
  match jGet att "type", jGet att "url" with
  | some tv, some uv =>
    let ty := jLowerString tv
    some { type := ty
           url := uv
           altText := jGetD att "name" (Json.str "")
           width := if ty = "image" then some (jGetD att "width" Json.null) else none
           height := if ty = "image" then some (jGetD att "height" Json.null) else none }
  | _, _ => none

/-- The `attributedTo` handling of `Note::fromArray`: a URL string gives a
stub author, an array gives `{id, name ?? preferredUsername ?? 'Unknown
User', avatar = icon.url ?? null}`, anything else leaves the author empty. -/
def buildAuthor (data : Json) : Option Author :=
  match jGet data "attributedTo" with
  | some (Json.str s) =>
    some { id := Json.str s, name := Json.str "Unknown User", avatar := Json.null }
  | some (Json.obj fields) =>
    some { id := jGetD (Json.obj fields) "id" (Json.str "")
           name := jGetD (Json.obj fields) "name"
             (jGetD (Json.obj fields) "preferredUsername" (Json.str "Unknown User"))
           avatar := jGetD (jGetD (Json.obj fields) "icon" Json.null) "url" Json.null }
  | some (Json.arr l) =>
    some { id := jGetD (Json.arr l) "id" (Json.str "")
           name := jGetD (Json.arr l) "name"
             (jGetD (Json.arr l) "preferredUsername" (Json.str "Unknown User"))
           avatar := jGetD (jGetD (Json.arr l) "icon" Json.null) "url" Json.null }
  | _ => none

/-- Embeds `Note::fromArray` (src/unnamed/part_001 lines 417-479).  The clock is the
explicit `now` parameter: `new DateTimeImmutable($data['published'] ?? 'now')`
uses the current time when `published` is absent, and a string `published`
goes through `phpDateTime` (so relative formats such as `now` are also
clock-dependent).  A `published` value that fails to parse makes the
constructor throw, modelled as `Except.error` (`ErrCode.unknownError`, since
no caller catches it); a non-string, non-null `published` (an array is a PHP
`TypeError`, also fatal; scalar-to-string coercions are not modelled) is
mapped to the same fatal path. -/
def Note.fromArray (data : Json) (now : Int) : Except ErrCode Note :=
  let ts? : Except ErrCode Int :=
    match jGet data "published" with
    | none => .ok now
    | some (Json.str s) =>
      (match phpDateTime s now with
       | some ts => .ok ts
       | none => .error .unknownError)
    | some _ => .error .unknownError
  match ts? with
  | .error e => .error e
  | .ok ts =>
    let originalContent := jGetStringD data "content" ""
    .ok { id := jGetStringD data "id" ""
          content := originalContent
          sanitizedContent := sanitizeContent originalContent
          publishedAt := ts
          formattedDate := tokyoFormat ts
          url := (match jGet data "url" with
                  | some (Json.str s) => some s
                  | _ => none)
          attachments := (match arrField data "attachment" with
                          | some atts => atts.filterMap buildAttachment
                          | none => [])
          author := buildAuthor data }

def authorJson : Option Author → Json
  | some a => Json.obj [("id", a.id), ("name", a.name), ("avatar", a.avatar)]
  | none => Json.arr []

def attachmentJson (a : Attachment) : Json :=
  Json.obj ([("type", Json.str a.type), ("url", a.url), ("alt_text", a.altText)] ++
    (match a.width, a.height with
     | some w, some h => [("width", w), ("height", h)]
     | _, _ => []))

/-- Embeds `Note::toArray`: the JSON-facing projection (note `content` carries the
*sanitized* content). -/
def Note.toArray (n : Note) : Json :=
  Json.obj [("id", Json.str n.id),
            ("content", Json.str n.sanitizedContent),
            ("published_at", Json.str (isoFormat n.publishedAt)),
            ("formatted_date", Json.str n.formattedDate),
            ("url", match n.url with | some s => Json.str s | none => Json.null),
            ("attachments", Json.arr (n.attachments.map attachmentJson)),
            ("author", authorJson n.author)]

/-- Execution environment of one `Client::fetch` invocation: `fetch` is the
`Client::httpGet` oracle (HTTP GET + JSON decode, or a typed failure —
network/HTTP/JSON errors), `now` the current epoch time (for
`DateTimeImmutable('now')`), `nowIso` the `date('c')` string and `nowHis`
the `date('H:i:s')` string. -/
structure Env where
  fetch : String → Except ErrCode Json
  now : Int
  nowIso : String
  nowHis : String

/-- Per-item classification result inside `Client::processOrderedItems`:
`skipped` is the `continue` taken when a URL-reference item's secondary
fetch throws; `candidate c` is falling through to the
`if ($noteObject && Validator::validateNoteObject(...))` test with
`$noteObject = c` (`none` meaning PHP `null`). -/
inductive Classified where
  | skipped : Classified
  | candidate : Option Json → Classified

/-- The classification/resolution chain of one loop iteration of
`Client::processOrderedItems` (src/unnamed/part_001 lines 205-276), paired
with the list of URLs it fetched:
1. `Announce` with a set `object`: if the object is a valid-URL string, one
   secondary fetch; a fetched `Note` becomes the candidate, any other fetched
   type or a fetch failure leaves the candidate `null`.
2. `Create` with a set `object`: an array object is the candidate directly; a
   valid-URL string object is fetched (failure leaves `null`).
3. A direct `Note` item is its own candidate.
4. An item that is itself a valid-URL string is fetched; on failure the item
   is `continue`d (skipped); a fetched `Create` with a set `object` unwraps
   to that object, anything else leaves the candidate `null`.
5. Anything else leaves the candidate `null`. -/
def classify (env : Env) (item : Json) : Classified × List String :=
  if typeIs item "Announce" && issetF item "object" then
    match jGet item "object" with
    | some (Json.str u) =>
      if isValidUrl u then
        match env.fetch u with
        | .ok o =>
          if typeIs o "Note" then (.candidate (some o), [u])
          else (.candidate none, [u])
        | .error _ => (.candidate none, [u])
      else (.candidate none, [])
    | _ => (.candidate none, [])
  else if typeIs item "Create" && issetF item "object" then
    match jGet item "object" with
    | some (Json.obj fields) => (.candidate (some (Json.obj fields)), [])
    | some (Json.arr l) => (.candidate (some (Json.arr l)), [])
    | some (Json.str u) =>
      if isValidUrl u then
        match env.fetch u with
        | .ok o => (.candidate (some o), [u])
        | .error _ => (.candidate none, [u])
      else (.candidate none, [])
    | _ => (.candidate none, [])
  else if typeIs item "Note" then (.candidate (some item), [])
  else
    match item with
    | Json.str u =>
      if isValidUrl u then
        match env.fetch u with
        | .error _ => (.skipped, [u])
        | .ok aj =>
          if typeIs aj "Create" && issetF aj "object" then
            (.candidate (jGet aj "object"), [u])
          else (.candidate none, [u])
      else (.candidate none, [])
    | _ => (.candidate none, [])

/-- Embeds `Client::processOrderedItems` (src/unnamed/part_001 lines 199-305):
iterate the items in order, breaking out as soon as `processedCount`
reaches `maxPosts`; a classified candidate that passes
`Validator::validateNoteObject` is built into a `Note` (an uncaught
`Note::fromArray` exception aborts everything); otherwise the raw item is
appended to the unparsed list — except for the `continue`d (skipped) case.
Returns `(notes, debug_unparsed_items, fetched urls)`. -/
def processItems (env : Env) (maxPosts : Int) :
    List Json → Int → Except ErrCode (List Note × List Json × List String)
  | [], _ => .ok ([], [], [])
  | item :: rest, count =>
    if maxPosts ≤ count then .ok ([], [], [])
    else
      match classify env item with
      | (.skipped, tr) =>
        (match processItems env maxPosts rest count with
         | .ok (ns, us, tr2) => .ok (ns, us, tr ++ tr2)
         | .error e => .error e)
      | (.candidate none, tr) =>
        (match processItems env maxPosts rest count with
         | .ok (ns, us, tr2) => .ok (ns, item :: us, tr ++ tr2)
         | .error e => .error e)
      | (.candidate (some n), tr) =>
        if validateNoteObject n then
          match Note.fromArray n env.now with
          | .ok note =>
            (match processItems env maxPosts rest (count + 1) with
             | .ok (ns, us, tr2) => .ok (note :: ns, us, tr ++ tr2)
             | .error e => .error e)
          | .error e => .error e
        else
          (match processItems env maxPosts rest count with
           | .ok (ns, us, tr2) => .ok (ns, item :: us, tr ++ tr2)
           | .error e => .error e)

/-- PHP `$firstPageUrl = is_string($first) ? $first : $first["id"] ?? null`
followed by the `if ($firstPageUrl)` truthiness test.  A non-string,
non-falsy `id` value (which PHP would coerce) is not modelled. -/
def firstUrlOf (fv : Json) : Option String :=
  match fv with
  | Json.str s => if phpFalsyStr s then none else some s
  | j =>
    match jGet j "id" with
    | some (Json.str s) => if phpFalsyStr s then none else some s
    | some (Json.num n) => if n = 0 then none else some (toString n)
    | _ => none

def addTrace (u : String) :
    Except ErrCode (List Note × List Json × List String) →
    Except ErrCode (List Note × List Json × List String)
  | .ok (ns, us, tr) => .ok (ns, us, u :: tr)
  | .error e => .error e

/-- Embeds `Client::extractNotesFromOutbox` (src/unnamed/part_001 lines 125-188):
prefer `orderedItems`, else `items`, else follow a `first` link once (one
more fetch) and read that page's `orderedItems`/`items`; otherwise no notes.
The returned trace lists the URLs fetched while extracting. -/
def extractNotes (env : Env) (outboxJson : Json) (maxPosts : Int) :
    Except ErrCode (List Note × List Json × List String) :=
  match arrField outboxJson "orderedItems" with
  | some its => processItems env maxPosts its 0
  | none =>
    match arrField outboxJson "items" with
    | some its => processItems env maxPosts its 0
    | none =>
      match jGet outboxJson "first" with
      | some fv =>
        (match firstUrlOf fv with
         | some fu =>
           (match env.fetch fu with
            | .error e => .error e
            | .ok fp =>
              match arrField fp "orderedItems" with
              | some its => addTrace fu (processItems env maxPosts its 0)
              | none =>
                match arrField fp "items" with
                | some its => addTrace fu (processItems env maxPosts its 0)
                | none => .ok ([], [], [fu]))
         | none => .ok ([], [], []))
      | none => .ok ([], [], [])

/-- The `actor_info` projection (`Client::extractActorInfo`).  Raw JSON
values are carried as the PHP array does; `summary` is `strip_tags`-ed with
no allowed tags. -/
structure ActorInfo where
  id : Json
  name : Json
  preferredUsername : Json
  summary : String
  url : Json
  avatar : Json
  header : Json
  followersCount : Json
  followingCount : Json

def extractActorInfo (actorData : Json) : ActorInfo :=
  { id := jGetD actorData "id" (Json.str "")
    name := jGetD actorData "name"
      (jGetD actorData "preferredUsername" (Json.str "Unknown"))
    preferredUsername := jGetD actorData "preferredUsername" (Json.str "")
    summary := String.mk (stripTags [] (jGetStringD actorData "summary" "").data)
    url := jGetD actorData "url" (Json.str "")
    avatar := jGetD (jGetD actorData "icon" Json.null) "url" Json.null
    header := jGetD (jGetD actorData "image" Json.null) "url" Json.null
    followersCount := jGetD actorData "followers" (Json.num 0)
    followingCount := jGetD actorData "following" (Json.num 0) }

/-- The `meta` block assembled in step 9 of `Client::fetch`. -/
structure Meta where
  count : Nat
  fetchedAt : String
  actorUrl : String
  outboxUrl : String

/-- The array returned by a successful `Client::fetch`: `posts`,
`actor_info`, `meta`, plus the unconditional `debug_outbox_page` and
`debug_test` entries.  (The `debug_unparsed` list computed by
`extractNotesFromOutbox` is *not* part of the returned array.) -/
structure FetchOk where
  posts : List Note
  actorInfo : ActorInfo
  meta : Meta
  debugOutboxPage : Json
  debugTest : String

/-- Steps 5.2-9 of `Client::fetch`, shared by the `first`-page and direct
branches: validate the working page, extract the notes, and assemble the
result.  `tr0` is the trace of page-level fetches performed so far. -/
def fetchFromPage (env : Env) (actorUrl outboxUrl : String)
    (actorJson outboxPage : Json) (tr0 : List String) (maxPosts : Int) :
    Except ErrCode FetchOk × List String :=
  if validateOutboxCollection outboxPage then
    match extractNotes env outboxPage maxPosts with
    | .error e => (.error e, tr0)
    | .ok (ns, _us, tr) =>
      (.ok { posts := ns
             actorInfo := extractActorInfo actorJson
             meta := { count := ns.length
                       fetchedAt := env.nowIso
                       actorUrl := actorUrl
                       outboxUrl := outboxUrl }
             debugOutboxPage := outboxPage
             debugTest := "THIS_IS_A_TEST_" ++ env.nowHis },
       tr0 ++ tr)
  else (.error .invalidNote, tr0)

/-- Embeds `Client::fetch` (src/unnamed/part_001 lines 51-113): URL validation,
actor fetch + validation, outbox URL extraction, outbox fetch, the single
`first`-page hop when `first` is a string, then `fetchFromPage`.  The second
component is the full ordered trace of `httpGet` URLs. -/
def Client.fetch (env : Env) (allowedDomains : List String)
    (actorUrl : String) (maxPosts : Int) : Except ErrCode FetchOk × List String :=
  match Validator.validateUrl actorUrl allowedDomains with
  | .error e => (.error e, [])
  | .ok _ =>
    match env.fetch actorUrl with
    | .error e => (.error e, [actorUrl])
    | .ok actorJson =>
      if validateActorObject actorJson then
        match jGetD actorJson "outbox" Json.null with
        | Json.str outboxUrl =>
          if phpFalsyStr outboxUrl then (.error .noOutbox, [actorUrl])
          else
            match env.fetch outboxUrl with
            | .error e => (.error e, [actorUrl, outboxUrl])
            | .ok outboxCollection =>
              match jGet outboxCollection "first" with
              | some (Json.str fu) =>
                (match env.fetch fu with
                 | .error e => (.error e, [actorUrl, outboxUrl, fu])
                 | .ok outboxPage =>
                   fetchFromPage env actorUrl outboxUrl actorJson outboxPage
                     [actorUrl, outboxUrl, fu] maxPosts)
              | _ =>
                fetchFromPage env actorUrl outboxUrl actorJson outboxCollection
                  [actorUrl, outboxUrl] maxPosts
        | _ => (.error .noOutbox, [actorUrl])
      else (.error .invalidActor, [actorUrl])

def actorInfoJson (a : ActorInfo) : Json :=
  Json.obj [("id", a.id), ("name", a.name),
            ("preferredUsername", a.preferredUsername),
            ("summary", Json.str a.summary), ("url", a.url),
            ("avatar", a.avatar), ("header", a.header),
            ("followers_count", a.followersCount),
            ("following_count", a.followingCount)]

def metaJson (m : Meta) : Json :=
  Json.obj [("count", Json.num (m.count : Int)), ("fetched_at", Json.str m.fetchedAt),
            ("actor_url", Json.str m.actorUrl), ("outbox_url", Json.str m.outboxUrl)]

/-- The `$responseData` array assembled by `api.php` (lines 54-60) on a
successful fetch: posts mapped through `Note::toArray`, actor info, meta —
and the two debug entries passed through unconditionally
(`$result['debug_outbox_page'] ?? null`, `$result['debug_test'] ?? null`,
both always set by `Client::fetch`). -/
def apiResponseData (r : FetchOk) : Json :=
  Json.obj [("posts", Json.arr (r.posts.map Note.toArray)),
            ("actor_info", actorInfoJson r.actorInfo),
            ("meta", metaJson r.meta),
            ("debug_outbox_page", r.debugOutboxPage),
            ("debug_test", Json.str r.debugTest)]

/-- PHP `min(max($maxPosts, 1), 50)` — the clamp applied by `api.php` before
calling `Client::fetch`. -/
def clampMaxPosts (x : Int) : Int := min (max x 1) 50

/-- Outcome of one loop iteration of `Client::processOrderedItems`, as a pure
function of the item (derived from `classify`): a built `Note`, a recorded
unparsed item, a silently skipped item, or a fatal build exception. -/
inductive ItemRes where
  | success : Note → ItemRes
  | recorded : ItemRes
  | skippedRes : ItemRes
  | fatal : ItemRes

def itemRes (env : Env) (item : Json) : ItemRes :=
  match classify env item with
  | (.skipped, _) => .skippedRes
  | (.candidate none, _) => .recorded
  | (.candidate (some n), _) =>
    if validateNoteObject n then
      match Note.fromArray n env.now with
      | .ok note => .success note
      | .error _ => .fatal
    else .recorded

def succOf (env : Env) (item : Json) : Option Note :=
  match itemRes env item with
  | .success n => some n
  | _ => none

def isRecordedItem (env : Env) (item : Json) : Bool :=
  match itemRes env item with
  | .recorded => true
  | _ => false

def isFatalItem (env : Env) (item : Json) : Bool :=
  match itemRes env item with
  | .fatal => true
  | _ => false

def itemTrace (env : Env) (item : Json) : List String := (classify env item).2

/-! Concrete data used by the per-claim witnesses and counterexamples. -/

def dummyFetchOk : FetchOk :=
  { posts := []
    actorInfo := extractActorInfo Json.null
    meta := { count := 0, fetchedAt := "", actorUrl := "", outboxUrl := "" }
    debugOutboxPage := Json.null
    debugTest := "" }

def fetchOkOrDefault (x : Except ErrCode FetchOk × List String) (d : FetchOk) :
    FetchOk :=
  match x.1 with
  | .ok r => r
  | .error _ => d

/-- An environment in which every outbound fetch fails. -/
def envC2x : Env :=
  { fetch := fun _ => .error .networkError, now := 0, nowIso := "i", nowHis := "h" }

/-- A URL-reference outbox item (a bare URL string). -/
def itemC2x : Json := Json.str "https://c2.example/activities/1"

def likeItemC2 : Json :=
  Json.obj [("type", Json.str "Like"), ("object", Json.str "https://c2.example/notes/9")]

def envC2w : Env :=
  { fetch := fun _ => .error .networkError, now := 0, nowIso := "i", nowHis := "h" }

def createItemC3 (n : String) : Json :=
  Json.obj [("type", Json.str "Create"),
            ("object", Json.obj [("type", Json.str "Note"), ("id", Json.str n),
                                 ("content", Json.str "hi")])]

def envC3w : Env :=
  { fetch := fun _ => .error .networkError, now := 0, nowIso := "i", nowHis := "h" }

def itemsC3w : List Json := [createItemC3 "a", createItemC3 "b", createItemC3 "c"]

def c4data : Json :=
  Json.obj [("type", Json.str "Note"), ("id", Json.str "n1"), ("content", Json.str "hi")]

def c4dataNow : Json :=
  Json.obj [("type", Json.str "Note"), ("id", Json.str "n1"),
            ("content", Json.str "hi"),
            ("published", Json.str "now")]

def c4dataP : Json :=
  Json.obj [("type", Json.str "Note"), ("id", Json.str "n1"),
            ("content", Json.str "hi"),
            ("published", Json.str "2024-01-02T03:04:05Z")]

def noteObjC5 : Json :=
  Json.obj [("type", Json.str "Note"), ("id", Json.str "n3"),
            ("content", Json.str "boosted")]

def artObjC5 : Json :=
  Json.obj [("type", Json.str "Article"), ("id", Json.str "a1"),
            ("content", Json.str "article")]

def annItemC5 : Json :=
  Json.obj [("type", Json.str "Announce"), ("object", Json.str "https://x/notes/3")]

def envC5note : Env :=
  { fetch := fun u => if u = "https://x/notes/3" then .ok noteObjC5 else .error .httpError
    now := 0, nowIso := "i", nowHis := "h" }

def envC5art : Env :=
  { fetch := fun u => if u = "https://x/notes/3" then .ok artObjC5 else .error .httpError
    now := 0, nowIso := "i", nowHis := "h" }

def envC5fail : Env :=
  { fetch := fun _ => .error .networkError, now := 0, nowIso := "i", nowHis := "h" }

def actorC7 : Json :=
  Json.obj [("id", Json.str "https://c7.example/actor"),
            ("type", Json.str "Person"),
            ("outbox", Json.str "https://c7.example/outbox")]

def createItemC7 : Json :=
  Json.obj [("type", Json.str "Create"),
            ("object", Json.obj [("type", Json.str "Note"), ("id", Json.str "n1"),
                                 ("content", Json.str "hello")])]

def pageC7 : Json :=
  Json.obj [("type", Json.str "OrderedCollectionPage"),
            ("orderedItems", Json.arr [createItemC7])]

def outboxC7 : Json :=
  Json.obj [("type", Json.str "OrderedCollection"),
            ("first", Json.str "https://c7.example/outbox?page=1")]

def envC7w : Env :=
  { fetch := fun u =>
      if u = "https://c7.example/actor" then .ok actorC7
      else if u = "https://c7.example/outbox" then .ok outboxC7
      else if u = "https://c7.example/outbox?page=1" then .ok pageC7
      else .error .httpError
    now := 0, nowIso := "iso", nowHis := "12:00:00" }

def aChars : List Char := List.replicate 10050 'a'

def aStr : String := String.mk aChars

def actorC9 : Json :=
  Json.obj [("id", Json.str "https://c9.example/actor"),
            ("type", Json.str "Person"),
            ("outbox", Json.str "https://c9.example/outbox")]

def createItemC9 : Json :=
  Json.obj [("type", Json.str "Create"),
            ("object", Json.obj [("type", Json.str "Note"), ("id", Json.str "n9"),
                                 ("content", Json.str "hi")])]

def outboxC9 : Json :=
  Json.obj [("type", Json.str "OrderedCollection"),
            ("orderedItems", Json.arr [createItemC9])]

def envC9 : Env :=
  { fetch := fun u =>
      if u = "https://c9.example/actor" then .ok actorC9
      else if u = "https://c9.example/outbox" then .ok outboxC9
      else .error .httpError
    now := 0, nowIso := "iso9", nowHis := "09:00:00" }

def rC9 : FetchOk :=
  fetchOkOrDefault (Client.fetch envC9 [] "https://c9.example/actor" 20) dummyFetchOk

def actorC10 : Json :=
  Json.obj [("id", Json.str "https://c10.example/actor"),
            ("type", Json.str "Person"),
            ("outbox", Json.str "https://c10.example/outbox")]

def createItemC10 : Json :=
  Json.obj [("type", Json.str "Create"),
            ("object", Json.obj [("type", Json.str "Note"), ("id", Json.str "n10"),
                                 ("content", Json.str "hey")])]

def outboxC10 : Json :=
  Json.obj [("type", Json.str "OrderedCollection"),
            ("orderedItems", Json.arr [createItemC10])]

def envC10 : Env :=
  { fetch := fun u =>
      if u = "https://c10.example/actor" then .ok actorC10
      else if u = "https://c10.example/outbox" then .ok outboxC10
      else .error .httpError
    now := 0, nowIso := "iso10", nowHis := "10:00:00" }

def rC10 : FetchOk :=
  fetchOkOrDefault (Client.fetch envC10 [] "https://c10.example/actor" 20) dummyFetchOk

/-- Characters on which `phpEscape` is the identity. -/
def plainChar (c : Char) : Bool :=
  !(c = '&' || c = '<' || c = '>' || c = Char.ofNat 34 || c = Char.ofNat 39)

theorem processItems_characterize (env : Env) (maxPosts : Int) :
    ∀ (items : List Json) (count : Int),
      (∀ it ∈ items, isFatalItem env it = false) →
      ∃ p s,
        items = p ++ s ∧
        processItems env maxPosts items count =
          .ok (p.filterMap (succOf env),
               p.filter (isRecordedItem env),
               p.flatMap (itemTrace env)) ∧
        count + ((p.filterMap (succOf env)).length : Int) ≤ max maxPosts count ∧
        (s = [] ∨ maxPosts ≤ count + ((p.filterMap (succOf env)).length : Int)) := by
  intro items
  induction items with
  | nil =>
    intro count _
    exact ⟨[], [], rfl, rfl, by simp, Or.inl rfl⟩
  | cons item rest ih =>
    intro count h
    by_cases hc : maxPosts ≤ count
    · refine ⟨[], item :: rest, rfl, ?_, by simp, Or.inr (by simpa using hc)⟩
      simp [processItems, hc]
    · have hcount : count < maxPosts := lt_of_not_le hc
      have hfat := h item (List.mem_cons_self _ _)
      have hrest : ∀ it ∈ rest, isFatalItem env it = false :=
        fun it hit => h it (List.mem_cons_of_mem _ hit)
      rcases hcl : classify env item with ⟨c, tr⟩
      have htr : itemTrace env item = tr := by simp [itemTrace, hcl]
      cases c with
      | skipped =>
        obtain ⟨p, s, hps, heq, hb, hs⟩ := ih count hrest
        have hsucc : succOf env item = none := by simp [succOf, itemRes, hcl]
        have hrec : isRecordedItem env item = false := by
          simp [isRecordedItem, itemRes, hcl]
        refine ⟨item :: p, s, by simp [hps], ?_, ?_, ?_⟩
        · simp only [processItems, if_neg hc, hcl, heq]
          simp [List.filterMap_cons, List.filter_cons, List.flatMap_cons,
            hsucc, hrec, htr]
        · simpa [List.filterMap_cons, hsucc] using hb
        · simpa [List.filterMap_cons, hsucc] using hs
      | candidate cand =>
        cases cand with
        | none =>
          obtain ⟨p, s, hps, heq, hb, hs⟩ := ih count hrest
          have hsucc : succOf env item = none := by simp [succOf, itemRes, hcl]
          have hrec : isRecordedItem env item = true := by
            simp [isRecordedItem, itemRes, hcl]
          refine ⟨item :: p, s, by simp [hps], ?_, ?_, ?_⟩
          · simp only [processItems, if_neg hc, hcl, heq]
            simp [List.filterMap_cons, List.filter_cons, List.flatMap_cons,
              hsucc, hrec, htr]
          · simpa [List.filterMap_cons, hsucc] using hb
          · simpa [List.filterMap_cons, hsucc] using hs
        | some n =>
          by_cases hv : validateNoteObject n
          · rcases hf : Note.fromArray n env.now with e | note
            · exfalso
              have : isFatalItem env item = true := by
                simp [isFatalItem, itemRes, hcl, hv, hf]
              rw [this] at hfat; exact Bool.noConfusion hfat
            · obtain ⟨p, s, hps, heq, hb, hs⟩ := ih (count + 1) hrest
              have hsucc : succOf env item = some note := by
                simp [succOf, itemRes, hcl, hv, hf]
              have hrec : isRecordedItem env item = false := by
                simp [isRecordedItem, itemRes, hcl, hv, hf]
              refine ⟨item :: p, s, by simp [hps], ?_, ?_, ?_⟩
              · simp only [processItems, if_neg hc, hcl, hv, if_pos, hf, heq]
                simp [List.filterMap_cons, List.filter_cons, List.flatMap_cons,
                  hsucc, hrec, htr]
              · have hmax : max maxPosts (count + 1) = maxPosts := by omega
                rw [hmax] at hb
                simp only [List.filterMap_cons, hsucc, List.length_cons]
                push_cast
                omega
              · rcases hs with hs | hs
                · exact Or.inl hs
                · refine Or.inr ?_
                  simp only [List.filterMap_cons, hsucc, List.length_cons]
                  push_cast
                  omega
          · obtain ⟨p, s, hps, heq, hb, hs⟩ := ih count hrest
            have hsucc : succOf env item = none := by
              simp [succOf, itemRes, hcl, hv]
            have hrec : isRecordedItem env item = true := by
              simp [isRecordedItem, itemRes, hcl, hv]
            refine ⟨item :: p, s, by simp [hps], ?_, ?_, ?_⟩
            · simp only [processItems, if_neg hc, hcl, hv, if_neg, heq]
              simp [List.filterMap_cons, List.filter_cons, List.flatMap_cons,
                hsucc, hrec, htr]
            · simpa [List.filterMap_cons, hsucc] using hb
            · simpa [List.filterMap_cons, hsucc] using hs

theorem stripTagsGo_no_lt (allowed : List String) :
    ∀ l : List Char, (∀ c ∈ l, c ≠ '<') → stripTagsGo allowed l none = l := by
  intro l
  induction l with
  | nil => intro _; rfl
  | cons c rest ih =>
    intro h
    have hc : ¬ c = '<' := h c (List.mem_cons_self _ _)
    simp [stripTagsGo, hc, ih fun x hx => h x (List.mem_cons_of_mem _ hx)]

theorem phpEscape_plain :
    ∀ l : List Char, (∀ c ∈ l, plainChar c = true) → phpEscape l = l := by
  intro l
  induction l with
  | nil => intro _; rfl
  | cons c rest ih =>
    intro h
    have hc := h c (List.mem_cons_self _ _)
    simp only [plainChar, Bool.not_eq_true', Bool.or_eq_false_iff,
      decide_eq_false_iff_not] at hc
    obtain ⟨⟨⟨⟨h1, h2⟩, h3⟩, h4⟩, h5⟩ := hc
    simp [phpEscape, h1, h2, h3, h4, h5,
      ih fun x hx => h x (List.mem_cons_of_mem _ hx)]

/-- C1.  The claim fails on the code: `strip_tags` removes only the tags
themselves, keeping the text between them (so `evil()` survives), and the
subsequent `htmlspecialchars(..., double_encode: false)` call HTML-escapes
the kept whitelist tags as well — contradicting the source comment
「ただし既に許可されたHTMLタグは保持」 ("the already-allowed HTML tags are
preserved") right above it.  The sanitized output is
`evil()&lt;p&gt;hi&lt;/p&gt;`, not `<p>hi</p>`. -/
theorem c1_sanitize_script_and_whitelist :
    sanitizeContent "<script>evil()</script><p>hi</p>" =
      "evil()&lt;p&gt;hi&lt;/p&gt;" ∧
    sanitizeContent "<script>evil()</script><p>hi</p>" ≠ "<p>hi</p>" := by
  exact ⟨by decide, by decide⟩

/-- C8.  Whenever the escaped, tag-stripped content exceeds 10000 characters,
`Note::sanitizeContent` truncates it to its first 10000 characters and
appends the `...` marker, for a total length of exactly 10003. -/
theorem c8_truncation (content : String)
    (h : 10000 < (sanitizePre content).length) :
    sanitizeContent content =
      String.mk ((sanitizePre content).take 10000 ++ ['.', '.', '.']) ∧
    (sanitizeContent content).length = 10003 := by
  constructor
  · simp [sanitizeContent, h]
  · simp only [sanitizeContent, if_pos h]
    simp [String.length, List.length_take]
    omega

/-- Witness for C8 at the claim's concrete input: 10050 plain characters
sanitize to the first 10000 characters followed by `...`. -/
theorem c8_truncation_witness :
    10000 < (sanitizePre aStr).length ∧
    sanitizeContent aStr = String.mk (List.replicate 10000 'a' ++ ['.', '.', '.']) := by
  have hplain : ∀ c ∈ aChars, c = 'a' := fun c hc => List.eq_of_mem_replicate hc
  have hstrip : stripTags allowedTags aStr.data = aChars := by
    show stripTagsGo allowedTags aChars none = aChars
    exact stripTagsGo_no_lt allowedTags aChars fun c hc => by
      rw [hplain c hc]; decide
  have hesc : phpEscape aChars = aChars :=
    phpEscape_plain aChars fun c hc => by rw [hplain c hc]; decide
  have hpre : sanitizePre aStr = aChars := by
    unfold sanitizePre
    rw [hstrip, hesc]
  have hlen : 10000 < (sanitizePre aStr).length := by
    rw [hpre]
    unfold aChars
    rw [List.length_replicate]
    norm_num
  refine ⟨hlen, ?_⟩
  rw [(c8_truncation aStr hlen).1, hpre]
  unfold aChars
  rw [List.take_replicate]
  norm_num

theorem phpDateTime_none_congr (s : String) (now1 now2 : Int)
    (h : phpDateTime s now1 = none) : phpDateTime s now2 = none := by
  unfold phpDateTime at h ⊢
  split_ifs at h ⊢
  all_goals simp_all

theorem phpDateTime_of_parse (s : String) (ts : Int) (now : Int)
    (h : parseDateTime s = some ts) : phpDateTime s now = some ts := by
  unfold phpDateTime
  split_ifs with h1 h2 h3 h4
  · subst h1
    have hn : parseDateTime "now" = none := rfl
    rw [hn] at h; exact Option.noConfusion h
  · subst h2
    have hn : parseDateTime "today" = none := rfl
    rw [hn] at h; exact Option.noConfusion h
  · subst h3
    have hn : parseDateTime "tomorrow" = none := rfl
    rw [hn] at h; exact Option.noConfusion h
  · subst h4
    have hn : parseDateTime "yesterday" = none := rfl
    rw [hn] at h; exact Option.noConfusion h
  · exact h

/-- C4 counterexample.  `c4data` is a valid note-shaped object (it passes
`Validator::validateNoteObject`) with no `published` field, and `c4dataNow`
is one whose `published` is the relative datetime string `now` — a string
`new DateTimeImmutable` parses against the current clock (the constructor
default path of the code passes the same literal).  Building either at two
different clock readings yields different `formattedDate` values, so the
build is not deterministic for *every* valid note-shaped object. -/
theorem c4_counterexample_clock_dependent_build :
    validateNoteObject c4data = true ∧
    (Note.fromArray c4data 0).map Note.formattedDate = .ok "1970年01月01日 09:00" ∧
    (Note.fromArray c4data 86400).map Note.formattedDate = .ok "1970年01月02日 09:00" ∧
    validateNoteObject c4dataNow = true ∧
    (Note.fromArray c4dataNow 0).map Note.formattedDate = .ok "1970年01月01日 09:00" ∧
    (Note.fromArray c4dataNow 86400).map Note.formattedDate = .ok "1970年01月02日 09:00" ∧
    ("1970年01月01日 09:00" : String) ≠ "1970年01月02日 09:00" := by
  exact ⟨by decide, rfl, rfl, by decide, rfl, rfl, by decide⟩

/-- C4 (amended).  `Note::fromArray` is deterministic in `sanitizedContent`,
`attachments` and `author` for every input — none of them depends on the
clock — and additionally the *entire* build (including `formattedDate`) is
clock-independent whenever the object's `published` field is an absolute
datetime string (one in the ISO-8601 subset `parseDateTime` accepts, which
`DateTimeImmutable` resolves without reference to the current time).  When
`published` is absent or is a relative datetime string such as `now`, the
timestamp is taken from the current clock and `formattedDate` may differ
between calls. -/
theorem c4_build_determinism (data : Json) (now1 now2 : Int) :
    (Note.fromArray data now1).map Note.sanitizedContent =
      (Note.fromArray data now2).map Note.sanitizedContent ∧
    (Note.fromArray data now1).map Note.attachments =
      (Note.fromArray data now2).map Note.attachments ∧
    (Note.fromArray data now1).map Note.author =
      (Note.fromArray data now2).map Note.author ∧
    (∀ s ts, jGet data "published" = some (Json.str s) →
      parseDateTime s = some ts →
      Note.fromArray data now1 = Note.fromArray data now2) := by
  rcases h : jGet data "published" with _ | v
  · refine ⟨?_, ?_, ?_, ?_⟩
    · simp [Note.fromArray, h, Except.map]
    · simp [Note.fromArray, h, Except.map]
    · simp [Note.fromArray, h, Except.map]
    · intro s ts hpub _
      exact Option.noConfusion hpub
  · cases v <;>
      try (refine ⟨?_, ?_, ?_, ?_⟩ <;> (simp [Note.fromArray, h, Except.map]; done))
    case str s =>
      rcases h1 : phpDateTime s now1 with _ | t1
      · have h2 : phpDateTime s now2 = none := phpDateTime_none_congr s now1 now2 h1
        refine ⟨?_, ?_, ?_, ?_⟩
        · simp [Note.fromArray, h, h1, h2, Except.map]
        · simp [Note.fromArray, h, h1, h2, Except.map]
        · simp [Note.fromArray, h, h1, h2, Except.map]
        · intro s' ts hpub hparse
          have hss : s = s' := by
            injection hpub with hv
            injection hv
          subst hss
          have hiso : phpDateTime s now1 = some ts :=
            phpDateTime_of_parse s ts now1 hparse
          rw [h1] at hiso
          exact Option.noConfusion hiso
      · rcases h2 : phpDateTime s now2 with _ | t2
        · have h1' : phpDateTime s now1 = none :=
            phpDateTime_none_congr s now2 now1 h2
          rw [h1] at h1'
          exact Option.noConfusion h1'
        · refine ⟨?_, ?_, ?_, ?_⟩
          · simp [Note.fromArray, h, h1, h2, Except.map]
          · simp [Note.fromArray, h, h1, h2, Except.map]
          · simp [Note.fromArray, h, h1, h2, Except.map]
          · intro s' ts hpub hparse
            have hss : s = s' := by
              injection hpub with hv
              injection hv
            subst hss
            have e1 : phpDateTime s now1 = some ts :=
              phpDateTime_of_parse s ts now1 hparse
            have e2 : phpDateTime s now2 = some ts :=
              phpDateTime_of_parse s ts now2 hparse
            simp [Note.fromArray, h, e1, e2]

/-- Witness for C4: with an absolute ISO-8601 `published` value, two builds
at different clock readings agree completely. -/
theorem c4_build_determinism_witness :
    jGet c4dataP "published" = some (Json.str "2024-01-02T03:04:05Z") ∧
    parseDateTime "2024-01-02T03:04:05Z" = some 1704164645 ∧
    Note.fromArray c4dataP 5 = Note.fromArray c4dataP 99 :=
  ⟨rfl, rfl,
    (c4_build_determinism c4dataP 5 99).2.2.2 "2024-01-02T03:04:05Z"
      1704164645 rfl rfl⟩

theorem hasStart_decompose :
    ∀ (p l : List Char), hasStart l p = true → l = p ++ l.drop p.length := by
  intro p
  induction p with
  | nil => intro l _; simp
  | cons c p ih =>
    intro l h
    cases l with
    | nil => simp [hasStart] at h
    | cons a l' =>
      simp only [hasStart, Bool.and_eq_true, decide_eq_true_eq] at h
      obtain ⟨rfl, h2⟩ := h
      simpa using ih l' h2

theorem urlScheme_https (url : String)
    (h : hasStart url.data "https://".data = true) :
    urlScheme url = some "https" := by
  have hd := hasStart_decompose "https://".data url.data h
  unfold urlScheme
  rw [hd]
  rfl

theorem dangerousSchemeCheck_https (url : String)
    (h : hasStart url.data "https://".data = true) :
    dangerousSchemeCheck url = .ok () := by
  unfold dangerousSchemeCheck
  rw [urlScheme_https url h]
  rfl

/-- C6.  `Validator::validateUrl` applies its rules in order, with no network
access (it is a pure function of `url` and `allowedDomains`): a malformed
URL, or one not starting with `https://` (a scheme other than exactly
`https`), fails with `INVALID_URL`; with a non-empty, wildcard-free
allowlist, a well-formed HTTPS URL whose host is not a member fails with
`DOMAIN_NOT_ALLOWED`; a well-formed HTTPS URL whose (truthy) host is a
member is authorized; and an empty allowlist authorizes every well-formed
HTTPS URL. -/
theorem c6_url_authorization (url : String) (allowedDomains : List String) :
    ((isValidUrl url = false ∨ hasStart url.data "https://".data = false) →
      Validator.validateUrl url allowedDomains = .error .invalidUrl) ∧
    (∀ host, isValidUrl url = true → hasStart url.data "https://".data = true →
      allowedDomains.isEmpty = false → allowedDomains.contains "*" = false →
      urlHost url = some host → allowedDomains.contains host = false →
      Validator.validateUrl url allowedDomains = .error .domainNotAllowed) ∧
    (∀ host, isValidUrl url = true → hasStart url.data "https://".data = true →
      urlHost url = some host → phpFalsyStr host = false →
      allowedDomains.contains host = true →
      Validator.validateUrl url allowedDomains = .ok ()) ∧
    (isValidUrl url = true → hasStart url.data "https://".data = true →
      allowedDomains = [] →
      Validator.validateUrl url allowedDomains = .ok ()) := by
  refine ⟨?_, ?_, ?_, ?_⟩
  · rintro (hv | hs)
    · simp [Validator.validateUrl, hv]
    · rcases hv : isValidUrl url with _ | _
      · simp [Validator.validateUrl, hv]
      · simp [Validator.validateUrl, hv, hs]
  · intro host hv hs hne hwild hhost hmem
    simp only [Validator.validateUrl, hv, hs, Bool.not_true, Bool.false_eq_true,
      if_false, if_neg, hne, hwild, Bool.not_false, Bool.and_self, if_true,
      hhost, hmem]
    simp [hhost, hmem]
  · intro host hv hs hhost htruthy hmem
    have hdc := dangerousSchemeCheck_https url hs
    have hmem' : host ∈ allowedDomains := by simpa using hmem
    cases h1 : allowedDomains.isEmpty with
    | true =>
      have hnil : allowedDomains = [] := by simpa using h1
      subst hnil
      simp at hmem'
    | false =>
      cases h2 : allowedDomains.contains "*" with
      | true =>
        simp [Validator.validateUrl, hv, hs, h1, h2, hhost, htruthy, hmem', hdc]
      | false =>
        simp [Validator.validateUrl, hv, hs, h1, h2, hhost, htruthy, hmem', hdc]
  · intro hv hs hempty
    subst hempty
    simp [Validator.validateUrl, hv, hs, dangerousSchemeCheck_https url hs]

/-- Witness for C6 at the claim's three concrete scenarios. -/
theorem c6_url_authorization_witness :
    Validator.validateUrl "http://x/actor" [] = .error .invalidUrl ∧
    Validator.validateUrl "https://blocked.example/actor" ["good.example"] =
      .error .domainNotAllowed ∧
    Validator.validateUrl "https://good.example/actor" ["good.example"] = .ok () := by
  refine ⟨?_, ?_, ?_⟩
  · exact (c6_url_authorization "http://x/actor" []).1 (Or.inr (by decide))
  · exact (c6_url_authorization "https://blocked.example/actor"
      ["good.example"]).2.1 "blocked.example" (by decide) (by decide) (by decide)
      (by decide) rfl (by decide)
  · exact (c6_url_authorization "https://good.example/actor"
      ["good.example"]).2.2.1 "good.example" (by decide) (by decide) rfl
      (by decide) (by decide)

theorem classify_skipped_shape (env : Env) (item : Json) (tr : List String)
    (h : classify env item = (.skipped, tr)) :
    ∃ u e, item = Json.str u ∧ isValidUrl u = true ∧ env.fetch u = .error e := by
  unfold classify at h
  repeat' split at h
  all_goals simp_all

/-- C2 counterexample.  A URL-reference item whose secondary fetch fails is
`continue`d (src/unnamed/part_001 line 274): it is *not* appended to the
unparsed list.  Here the single item fails resolution (the fetch of its URL
returns a network error, and the trace shows the fetch was attempted), yet
both the notes list and the unparsed list come back empty. -/
theorem c2_counterexample_skipped_url_item :
    envC2x.fetch "https://c2.example/activities/1" = .error .networkError ∧
    processItems envC2x 10 [itemC2x] 0 =
      .ok ([], [], ["https://c2.example/activities/1"]) :=
  ⟨rfl, rfl⟩

/-- C2 (amended).  Every item processed before the early exit that fails
classification, resolution or note validation is appended to the unparsed
list and iteration continues — *except* an item that is itself a URL string
whose secondary fetch fails, which is skipped without being recorded (the
`continue` at src/unnamed/part_001 line 274); no per-item failure aborts
iteration. -/
theorem c2_unparsed_accumulation (env : Env) (maxPosts : Int)
    (items : List Json) (count : Int)
    (hnf : ∀ it ∈ items, isFatalItem env it = false) :
    ∃ p s,
      items = p ++ s ∧
      processItems env maxPosts items count =
        .ok (p.filterMap (succOf env), p.filter (isRecordedItem env),
             p.flatMap (itemTrace env)) ∧
      (∀ it ∈ p, succOf env it = none → isRecordedItem env it = false →
        ∃ u e, it = Json.str u ∧ isValidUrl u = true ∧ env.fetch u = .error e) ∧
      (s = [] ∨ maxPosts ≤ count + ((p.filterMap (succOf env)).length : Int)) := by
  obtain ⟨p, s, hps, heq, _, hstop⟩ :=
    processItems_characterize env maxPosts items count hnf
  refine ⟨p, s, hps, heq, ?_, hstop⟩
  intro it hit hsu hrec
  have hfat : isFatalItem env it = false :=
    hnf it (hps ▸ List.mem_append_left s hit)
  rcases hcl : classify env it with ⟨c, tr⟩
  cases c with
  | skipped => exact classify_skipped_shape env it tr hcl
  | candidate o =>
    cases o with
    | none => simp [isRecordedItem, itemRes, hcl] at hrec
    | some n =>
      by_cases hv : validateNoteObject n = true
      · rcases hf : Note.fromArray n env.now with e | note
        · simp [isFatalItem, itemRes, hcl, hv, hf] at hfat
        · simp [succOf, itemRes, hcl, hv, hf] at hsu
      · simp only [Bool.not_eq_true] at hv
        simp [isRecordedItem, itemRes, hcl, hv] at hrec

/-- Witness for C2 (amended): a `Like` item (unresolvable, recorded) followed
by a URL-reference item with a failing fetch (skipped). -/
theorem c2_unparsed_accumulation_witness :
    (∀ it ∈ [likeItemC2, itemC2x], isFatalItem envC2w it = false) ∧
    (∃ p s,
      [likeItemC2, itemC2x] = p ++ s ∧
      processItems envC2w 10 [likeItemC2, itemC2x] 0 =
        .ok (p.filterMap (succOf envC2w), p.filter (isRecordedItem envC2w),
             p.flatMap (itemTrace envC2w)) ∧
      (∀ it ∈ p, succOf envC2w it = none → isRecordedItem envC2w it = false →
        ∃ u e, it = Json.str u ∧ isValidUrl u = true ∧ envC2w.fetch u = .error e) ∧
      (s = [] ∨ 10 ≤ 0 + ((p.filterMap (succOf envC2w)).length : Int))) :=
  ⟨by decide, c2_unparsed_accumulation envC2w 10 [likeItemC2, itemC2x] 0 (by decide)⟩

/-- C3.  For every item list and every (non-negative) `maxPosts`, the notes
list is exactly the in-order image of the successfully resolving+validating
items of the processed prefix, its length never exceeds `maxPosts`, and
iteration stops at `maxPosts` notes: either the whole list was processed or
the notes list has exactly `maxPosts` entries, and the suffix contributes
nothing — no notes, no unparsed entries, no fetches. -/
theorem c3_notes_bounded_ordered (env : Env) (maxPosts : Int) (items : List Json)
    (hmp : 0 ≤ maxPosts)
    (hnf : ∀ it ∈ items, isFatalItem env it = false) :
    ∃ p s,
      items = p ++ s ∧
      processItems env maxPosts items 0 =
        .ok (p.filterMap (succOf env), p.filter (isRecordedItem env),
             p.flatMap (itemTrace env)) ∧
      ((p.filterMap (succOf env)).length : Int) ≤ maxPosts ∧
      (s = [] ∨ ((p.filterMap (succOf env)).length : Int) = maxPosts) := by
  obtain ⟨p, s, hps, heq, hb, hstop⟩ :=
    processItems_characterize env maxPosts items 0 hnf
  rw [max_eq_left hmp] at hb
  have hb' : ((p.filterMap (succOf env)).length : Int) ≤ maxPosts := by omega
  refine ⟨p, s, hps, heq, hb', ?_⟩
  rcases hstop with h | h
  · exact Or.inl h
  · exact Or.inr (by omega)

/-- Witness for C3: three resolvable items under `maxPosts = 2`. -/
theorem c3_notes_bounded_ordered_witness :
    (0 : Int) ≤ 2 ∧ (∀ it ∈ itemsC3w, isFatalItem envC3w it = false) ∧
    (∃ p s,
      itemsC3w = p ++ s ∧
      processItems envC3w 2 itemsC3w 0 =
        .ok (p.filterMap (succOf envC3w), p.filter (isRecordedItem envC3w),
             p.flatMap (itemTrace envC3w)) ∧
      ((p.filterMap (succOf envC3w)).length : Int) ≤ 2 ∧
      (s = [] ∨ ((p.filterMap (succOf envC3w)).length : Int) = 2)) :=
  ⟨by decide, by decide,
    c3_notes_bounded_ordered envC3w 2 itemsC3w (by decide) (by decide)⟩

/-- C5.  For an `Announce` item whose `object` is a (valid) URL string,
resolution performs exactly one secondary fetch of that URL; a fetched
`Note` becomes the candidate, while a fetched object of any other type or a
fetch failure leaves the item unresolved — recorded in the unparsed list,
with processing returning normally (no error raised). -/
theorem c5_announce_resolution (env : Env) (item : Json) (url : String)
    (maxPosts : Int)
    (hty : jGet item "type" = some (Json.str "Announce"))
    (hobj : jGet item "object" = some (Json.str url))
    (hurl : isValidUrl url = true)
    (hmp : 0 < maxPosts) :
    itemTrace env item = [url] ∧
    (∀ o, env.fetch url = .ok o → typeIs o "Note" = true →
      classify env item = (.candidate (some o), [url])) ∧
    (∀ o, env.fetch url = .ok o → typeIs o "Note" = false →
      processItems env maxPosts [item] 0 = .ok ([], [item], [url])) ∧
    (∀ e, env.fetch url = .error e →
      processItems env maxPosts [item] 0 = .ok ([], [item], [url])) := by
  have htyB : typeIs item "Announce" = true := by simp [typeIs, hty]
  have hobjB : issetF item "object" = true := by simp [issetF, hobj]
  have hnotle : ¬ maxPosts ≤ 0 := by omega
  have hredex : classify env item =
      (match env.fetch url with
       | .ok o =>
         if typeIs o "Note" = true then (.candidate (some o), [url])
         else (.candidate none, [url])
       | .error _ => (.candidate none, [url])) := by
    simp [classify, htyB, hobjB, hobj, hurl]
  refine ⟨?_, ?_, ?_, ?_⟩
  · unfold itemTrace
    rw [hredex]
    rcases env.fetch url with e | o
    · rfl
    · by_cases hn : typeIs o "Note" = true <;> simp [hn]
  · intro o ho hn
    rw [hredex, ho]
    simp [hn]
  · intro o ho hn
    have hcl : classify env item = (.candidate none, [url]) := by
      rw [hredex, ho]; simp [hn]
    simp [processItems, hnotle, hcl]
  · intro e ho
    have hcl : classify env item = (.candidate none, [url]) := by
      rw [hredex, ho]
    simp [processItems, hnotle, hcl]

/-- Witness for C5: the claim's scenario `{type:"Announce",
object:"https://x/notes/3"}` under a fetched `Note`, a fetched `Article`,
and a failing fetch. -/
theorem c5_announce_resolution_witness :
    classify envC5note annItemC5 =
      (.candidate (some noteObjC5), ["https://x/notes/3"]) ∧
    processItems envC5art 20 [annItemC5] 0 =
      .ok ([], [annItemC5], ["https://x/notes/3"]) ∧
    processItems envC5fail 20 [annItemC5] 0 =
      .ok ([], [annItemC5], ["https://x/notes/3"]) := by
  refine ⟨?_, ?_, ?_⟩
  · exact (c5_announce_resolution envC5note annItemC5 "https://x/notes/3" 20
      rfl rfl (by decide) (by decide)).2.1 noteObjC5 rfl (by decide)
  · exact (c5_announce_resolution envC5art annItemC5 "https://x/notes/3" 20
      rfl rfl (by decide) (by decide)).2.2.1 artObjC5 rfl (by decide)
  · exact (c5_announce_resolution envC5fail annItemC5 "https://x/notes/3" 20
      rfl rfl (by decide) (by decide)).2.2.2 .networkError rfl

theorem fetchFromPage_meta (env : Env) (aU oU : String) (aj page : Json)
    (tr0 : List String) (mp : Int) (r : FetchOk) (tr : List String)
    (h : fetchFromPage env aU oU aj page tr0 mp = (.ok r, tr)) :
    r.meta.count = r.posts.length ∧ r.meta.actorUrl = aU ∧ r.meta.outboxUrl = oU := by
  unfold fetchFromPage at h
  repeat' split at h
  all_goals simp_all
  all_goals (obtain ⟨h1, h2⟩ := h; subst h1; simp)

/-- C10.  Whenever `Client::fetch` succeeds, `meta.count` equals the length
of the posts list, `meta.actor_url` is the requested actor URL, and
`meta.outbox_url` is exactly the `outbox` value of the fetched, validated
actor document. -/
theorem c10_meta_invariants (env : Env) (ad : List String) (actorUrl : String)
    (maxPosts : Int) (r : FetchOk) (tr : List String)
    (h : Client.fetch env ad actorUrl maxPosts = (.ok r, tr)) :
    r.meta.count = r.posts.length ∧ r.meta.actorUrl = actorUrl ∧
    ∃ actorJson, env.fetch actorUrl = .ok actorJson ∧
      jGetD actorJson "outbox" Json.null = Json.str r.meta.outboxUrl := by
  unfold Client.fetch at h
  repeat' split at h
  all_goals simp_all
  all_goals
    obtain ⟨h1, h2, h3⟩ := fetchFromPage_meta _ _ _ _ _ _ _ _ _ h
  all_goals exact ⟨h1, h2, h3.symm⟩

/-- Witness for C10 at a concrete successful fetch. -/
theorem c10_meta_invariants_witness :
    Client.fetch envC10 [] "https://c10.example/actor" 20 =
      (.ok rC10, ["https://c10.example/actor", "https://c10.example/outbox"]) ∧
    rC10.meta.count = rC10.posts.length ∧
    rC10.meta.actorUrl = "https://c10.example/actor" := by
  have h : Client.fetch envC10 [] "https://c10.example/actor" 20 =
      (.ok rC10, ["https://c10.example/actor", "https://c10.example/outbox"]) := rfl
  obtain ⟨h1, h2, _⟩ :=
    c10_meta_invariants envC10 [] "https://c10.example/actor" 20 rC10 _ h
  exact ⟨h, h1, h2⟩

/-- C7.  When the outbox collection exposes `first` as a URL string and the
fetched first page carries `orderedItems`, the whole pipeline performs
exactly the page-level fetches actor → outbox → first page (plus only the
per-item secondary fetches of the processed items), reads the items from
that page alone, and never touches a further page — regardless of whether
the page yields fewer notes than `maxPosts`. -/
theorem c7_single_page_fetch (env : Env) (ad : List String) (actorUrl : String)
    (maxPosts : Int) (actorJson coll page : Json) (outboxUrl fUrl : String)
    (items : List Json)
    (hval : Validator.validateUrl actorUrl ad = .ok ())
    (hactor : env.fetch actorUrl = .ok actorJson)
    (hva : validateActorObject actorJson = true)
    (hout : jGetD actorJson "outbox" Json.null = Json.str outboxUrl)
    (hnfal : phpFalsyStr outboxUrl = false)
    (hcoll : env.fetch outboxUrl = .ok coll)
    (hfirst : jGet coll "first" = some (Json.str fUrl))
    (hpage : env.fetch fUrl = .ok page)
    (hvc : validateOutboxCollection page = true)
    (hitems : arrField page "orderedItems" = some items)
    (hnf : ∀ it ∈ items, isFatalItem env it = false) :
    ∃ p s r,
      items = p ++ s ∧
      Client.fetch env ad actorUrl maxPosts =
        (.ok r, [actorUrl, outboxUrl, fUrl] ++ p.flatMap (itemTrace env)) ∧
      r.posts = p.filterMap (succOf env) := by
  obtain ⟨p, s, hps, hproc, _, _⟩ :=
    processItems_characterize env maxPosts items 0 hnf
  refine ⟨p, s,
    { posts := p.filterMap (succOf env)
      actorInfo := extractActorInfo actorJson
      meta := { count := (p.filterMap (succOf env)).length
                fetchedAt := env.nowIso
                actorUrl := actorUrl
                outboxUrl := outboxUrl }
      debugOutboxPage := page
      debugTest := "THIS_IS_A_TEST_" ++ env.nowHis },
    hps, ?_, rfl⟩
  simp only [Client.fetch, hval, hactor, hva, if_true, hout, hnfal,
    Bool.false_eq_true, if_false, hcoll, hfirst, hpage]
  simp only [fetchFromPage, hvc, if_true, extractNotes, hitems, hproc]

/-- Witness for C7: a one-item first page under `maxPosts = 20` — fewer
notes than requested, and still only the three page fetches occur. -/
theorem c7_single_page_fetch_witness :
    jGet outboxC7 "first" = some (Json.str "https://c7.example/outbox?page=1") ∧
    arrField pageC7 "orderedItems" = some [createItemC7] ∧
    (∃ p s r,
      [createItemC7] = p ++ s ∧
      Client.fetch envC7w [] "https://c7.example/actor" 20 =
        (.ok r, ["https://c7.example/actor", "https://c7.example/outbox",
                 "https://c7.example/outbox?page=1"] ++
          p.flatMap (itemTrace envC7w)) ∧
      r.posts = p.filterMap (succOf envC7w)) :=
  ⟨rfl, rfl,
    c7_single_page_fetch envC7w [] "https://c7.example/actor" 20 actorC7
      outboxC7 pageC7 "https://c7.example/outbox"
      "https://c7.example/outbox?page=1" [createItemC7]
      rfl rfl rfl rfl rfl rfl rfl rfl rfl rfl (by decide)⟩

/-- C9.  The claim fails on the code: there is no feature flag — a successful
fetch *always* carries the raw outbox page (`debug_outbox_page`) and the
`debug_test` marker through `api.php`'s success response (the `★デバッグ`
comments in the source mark them as leftover debug output).  At a concrete
successful fetch the response contains the full raw outbox page. -/
theorem c9_debug_fields_always_present :
    (Client.fetch envC9 [] "https://c9.example/actor" 20).1 = .ok rC9 ∧
    rawGet (apiResponseData rC9) "debug_outbox_page" = some outboxC9 ∧
    rawGet (apiResponseData rC9) "debug_test" =
      some (Json.str "THIS_IS_A_TEST_09:00:00") ∧
    outboxC9 ≠ Json.null :=
  ⟨rfl, rfl, rfl, fun h => Json.noConfusion h⟩
